import Mathlib

/-!
Shallow embedding of the deterministic logic of deepwave's FWI driver
(src/deepwave/fwi.py): batch indexing, temporal windowing, pooling
(downsampling), survey-pad calculation, PML width set-up, and the loop
structure of the training entry point.  Python floats are modelled as
exact rationals, tensors along the relevant axis as lists of rationals,
and tensor shapes as lists of naturals.  Python `int()` truncation and
negative-stop slicing are modelled explicitly.
-/

/-- Python `int(q)`: truncation toward zero of a real quantity, modelled on
the exact rational value. -/
def pyInt (q : ℚ) : ℤ := if 0 ≤ q then ⌊q⌋ else ⌈q⌉

/-- Python slicing `l[:stop]` with a possibly negative `stop`: a negative
stop counts from the end of the list. -/
def pyTake {α : Type} (l : List α) (stop : ℤ) : List α :=
  if 0 ≤ stop then l.take stop.toNat
  else l.take ((l.length : ℤ) + stop).toNat

/-- Ceiling division on naturals, as produced by Python `math.ceil(a / b)`
on exact integer inputs. -/
def ceilDiv (a b : ℕ) : ℕ := (a + b - 1) / b

/-- The superbatch size computed in `extract_batch`:
`math.ceil(num_shots / num_superbatches)`. -/
def superbatch_size (num_shots num_superbatches : ℕ) : ℕ :=
  ceilDiv num_shots num_superbatches

/-- The batch size computed in `extract_batch`:
`math.ceil(superbatch_size / num_batches)`. -/
def batch_size (num_shots num_superbatches num_batches : ℕ) : ℕ :=
  ceilDiv (superbatch_size num_shots num_superbatches) num_batches

/-- The start of the shot range selected by `extract_batch`:
`min(batch_idx * superbatch_size + superbatch_idx * batch_size, num_shots)`. -/
def batch_start (num_shots num_superbatches num_batches superbatch_idx batch_idx : ℕ) : ℕ :=
  min (batch_idx * superbatch_size num_shots num_superbatches +
       superbatch_idx * batch_size num_shots num_superbatches num_batches)
      num_shots

/-- The end of the shot range selected by `extract_batch`:
`min(batch_start + batch_size, num_shots)`. -/
def batch_end (num_shots num_superbatches num_batches superbatch_idx batch_idx : ℕ) : ℕ :=
  min (batch_start num_shots num_superbatches num_batches superbatch_idx batch_idx +
       batch_size num_shots num_superbatches num_batches)
      num_shots

/-- The number of `(superbatch_idx, batch_idx)` pairs whose half-open shot
range `[batch_start, batch_end)` contains the shot index `x`. -/
def coverCount (num_shots num_superbatches num_batches x : ℕ) : ℕ :=
  ((Finset.range num_superbatches ×ˢ Finset.range num_batches).filter
    (fun p =>
      batch_start num_shots num_superbatches num_batches p.1 p.2 ≤ x ∧
      x < batch_end num_shots num_superbatches num_batches p.1 p.2)).card

/-- The left padding computed in `pool_data`:
`int(start_time / dt) % num_pool` with Python (sign-of-divisor) modulo. -/
def poolDataPadding (start_time dt : ℚ) (num_pool : ℕ) : ℕ :=
  (pyInt (start_time / dt) % (num_pool : ℤ)).toNat

/-- PyTorch `AvgPool1d(kernel, padding=padding)` applied along the time
axis: implicit zero padding of `padding` samples on BOTH sides,
stride equal to the kernel size, `ceil_mode=False` (floor output length),
and `count_include_pad=True` (padding zeros take part in each mean).
The library raises `RuntimeError` (modelled as `none`) unless the kernel
is positive, the padding is at most half the kernel size, and the
computed output length is at least 1 (kernel at most padded length). -/
def avgPool1d (kernel padding : ℕ) (xs : List ℚ) : Option (List ℚ) :=
  if 1 ≤ kernel ∧ padding ≤ kernel / 2 ∧ kernel ≤ xs.length + 2 * padding then
    some ((List.range ((xs.length + 2 * padding - kernel) / kernel + 1)).map
      (fun i => (((List.replicate padding (0:ℚ) ++ xs ++
        List.replicate padding 0).drop (i * kernel)).take kernel).sum / kernel))
  else none

/-- The `pool_data` function: average-pool the time axis with kernel
`num_pool` and padding `int(start_time / dt) % num_pool`, and return the
coarsened time step `dt * num_pool`; the call raises (returns `none`)
exactly when `AvgPool1d` rejects the kernel/padding/length combination. -/
def pool_data (data : List ℚ) (num_pool : ℕ) (dt : ℚ) (start_time : ℚ) :
    Option (List ℚ × ℚ) :=
  let padding := poolDataPadding start_time dt num_pool
  (avgPool1d num_pool padding data).map (fun data_pool => (data_pool, dt * num_pool))

/-- The rank dispatch at the top of `pool_model`: model rank 2 selects the
1-D pooling window (`AvgPool1d`), rank 3 the 2-D window, rank 4 the 3-D
window, and any other rank raises `ValueError` (modelled as `none`). -/
def pool_model_dispatch (ndims : ℕ) : Option ℕ :=
  if ndims = 2 then some 1
  else if ndims = 3 then some 2
  else if ndims = 4 then some 3
  else none

/-- Minimum of a list of rationals, as `model.min()` over the flattened
model values (0 on the empty list, which the source never produces). -/
def listMin : List ℚ → ℚ
  | [] => 0
  | [a] => a
  | a :: b :: rest => min a (listMin (b :: rest))

/-- The `max_dx` computed in `pool_model`: with `max_freq = 1 / dt / 2` and
`min_wavelength = min_vel / max_freq`, it is
`min_wavelength / min_cells_per_wavelength`. -/
def max_dx (min_vel dt min_cells_per_wavelength : ℚ) : ℚ :=
  (min_vel / (1 / dt / 2)) / min_cells_per_wavelength

/-- The decimation factor computed in `pool_model`:
`torch.ceil(max_dx / dx).long()` with `min_vel = model.min()`. -/
def num_pool (model : List ℚ) (dt dx min_cells_per_wavelength : ℚ) : ℤ :=
  ⌈max_dx (listMin model) dt min_cells_per_wavelength / dx⌉

/-- The coarsened spatial step returned by `pool_model`: `dx * num_pool`. -/
def pool_model_new_dx (model : List ℚ) (dt dx min_cells_per_wavelength : ℚ) : ℚ :=
  dx * (num_pool model dt dx min_cells_per_wavelength : ℚ)

/-- The `apply_max_time` function: truncate the observed data to the first
`max_time` time samples and the source wavelet to the first
`int(-src_start_time / dt + max_time)` samples (Python slicing, so a
negative stop drops samples from the end). -/
def apply_max_time (batch_data_true : List ℚ) (src_amp : List ℚ)
    (dt src_start_time : ℚ) (max_time : ℕ) : List ℚ × List ℚ :=
  let data := pyTake batch_data_true (max_time : ℤ)
  let max_src_amp_time := pyInt (-src_start_time / dt + (max_time : ℚ))
  (data, pyTake src_amp max_src_amp_time)

/-- The `calc_survey_pad` function: with `ndims = model.dim() - 1` and
`pad_dist = model.max() * max_time * dt / 2`, build a vector of
`2 * ndims` entries all equal to `pad_dist` and, when `ndims > 1`, clamp
the entries from index 2 onward to at most `max_horiz_survey_pad`. -/
def calc_survey_pad (max_time : ℕ) (dt : ℚ) (model_dim : ℕ) (model_max : ℚ)
    (max_horiz_survey_pad : ℚ) : List ℚ :=
  let ndims := model_dim - 1
  let pad_dist := model_max * (max_time : ℚ) * dt / 2
  let survey_pad := List.replicate (2 * ndims) pad_dist
  if 1 < ndims then
    survey_pad.take 2 ++ (survey_pad.drop 2).map (fun v => min v max_horiz_survey_pad)
  else survey_pad

/-- The PML width vector built in `fwi`:
`torch.Tensor([0, 1, 1, 1, 0, 0]) * pml_width`. -/
def pml_width_vec (pml_width : ℚ) : List ℚ :=
  ([0, 1, 1, 1, 0, 0] : List ℚ).map (fun w => w * pml_width)

/-- The stage indices of the outer time-horizon loop of `fwi`.  The source
reads `for max_time_idx in range(1):` with the intended bound
`num_max_time` commented out, so the argument is ignored and exactly one
stage index is produced. -/
def fwiStageIndices (num_max_time : ℕ) : List ℕ :=
  List.range 1

/-- The time horizon used in stage `max_time_idx` of `fwi`:
`(max_time_idx + 1) * int(num_steps / num_max_time)`. -/
def fwiMaxTime (num_steps num_max_time max_time_idx : ℕ) : ℕ :=
  (max_time_idx + 1) * (num_steps / num_max_time)

/-- The number of `calc_survey_pad` computations performed by `fwi`: one
per executed stage of the outer time-horizon loop. -/
def fwiSurveyPadRecomputations (num_max_time : ℕ) : ℕ :=
  (fwiStageIndices num_max_time).length

/-- The shape adjustment applied to `model_init` by `fwi`: a singleton
property axis is prepended exactly when the first dimension is not 1. -/
def fwiAddPropertyAxis (shape : List ℕ) : List ℕ :=
  if shape.headD 0 ≠ 1 then 1 :: shape else shape

theorem ceilDiv_le_mul (a b : ℕ) (hb : 0 < b) : a ≤ b * ceilDiv a b := by
  unfold ceilDiv
  have h1 := Nat.div_add_mod (a + b - 1) b
  have h2 := Nat.mod_lt (a + b - 1) hb
  omega

theorem ceilDiv_pos {a b : ℕ} (ha : 0 < a) (hb : 0 < b) : 0 < ceilDiv a b := by
  unfold ceilDiv
  exact Nat.div_pos (by omega) hb

/-- C1 counterexample: with `num_shots = 10`, `num_superbatches = 2`,
`num_batches = 2`, shot index 5 lies in two of the produced ranges
(those of pairs `(0, 1)` and `(1, 0)`), so the ranges do not cover every
shot exactly once. -/
theorem extract_batch_cover_counterexample :
    coverCount 10 2 2 5 = 2 ∧ coverCount 10 2 2 5 ≠ 1 := by decide

/-- C1 (amended): when `num_superbatches * batch_size` equals
`superbatch_size` (the inner interleaving stride exactly tiles each
superblock of the shot index space, e.g. when `num_superbatches` and
`num_batches` both divide evenly), every shot index in `[0, num_shots)`
lies in exactly one of the ranges produced by `extract_batch` over all
`(superbatch_idx, batch_idx)` pairs; without that side condition the
ranges may overlap or leave gaps. -/
theorem extract_batch_exact_cover (S NS NB : ℕ) (hS : 1 ≤ S) (hNS : 1 ≤ NS) (hNB : 1 ≤ NB)
    (hexact : NS * batch_size S NS NB = superbatch_size S NS)
    (x : ℕ) (hx : x < S) :
    coverCount S NS NB x = 1 := by
  have hSBpos : 0 < superbatch_size S NS := ceilDiv_pos hS hNS
  have hBpos : 0 < batch_size S NS NB := by
    rcases Nat.eq_zero_or_pos (batch_size S NS NB) with h0 | h
    · rw [h0, Nat.mul_zero] at hexact; omega
    · exact h
  set B := batch_size S NS NB with hB
  set SB := superbatch_size S NS with hSB
  have hNSNB : NS ≤ NB := by
    have h1 : SB ≤ NB * B := ceilDiv_le_mul SB NB hNB
    have h2 : NS * B ≤ NB * B := by omega
    exact Nat.le_of_mul_le_mul_right h2 hBpos
  have hcap : S ≤ NB * NS * B := by
    have h1 : S ≤ NS * SB := ceilDiv_le_mul S NS hNS
    have h2 : NS * SB ≤ NB * SB := Nat.mul_le_mul_right SB hNSNB
    calc S ≤ NS * SB := h1
      _ ≤ NB * SB := h2
      _ = NB * (NS * B) := by rw [hexact]
      _ = NB * NS * B := by ring
  have hk : x / B < NB * NS := by
    rw [Nat.div_lt_iff_lt_mul hBpos]
    omega
  have hmem : ∀ p : ℕ × ℕ,
      (batch_start S NS NB p.1 p.2 ≤ x ∧ x < batch_end S NS NB p.1 p.2) ↔
      (p.2 * NS + p.1) * B ≤ x ∧ x < (p.2 * NS + p.1) * B + B := by
    intro p
    have hraw : p.2 * SB + p.1 * B = (p.2 * NS + p.1) * B := by
      rw [← hexact]; ring
    unfold batch_end batch_start
    rw [← hSB, ← hB, hraw]
    omega
  have hdiv : ∀ m : ℕ, ((m * B ≤ x ∧ x < m * B + B) ↔ m = x / B) := by
    intro m
    constructor
    · rintro ⟨h1, h2⟩
      exact (Nat.div_eq_of_lt_le h1 (by rw [Nat.succ_mul]; omega)).symm
    · rintro rfl
      have h1 : x / B * B ≤ x := Nat.div_mul_le_self x B
      refine ⟨h1, ?_⟩
      have h4 : x / B * B = B * (x / B) := Nat.mul_comm _ _
      have h2 := Nat.div_add_mod x B
      have h3 := Nat.mod_lt x hBpos
      omega
  have hsingle : ((Finset.range NS ×ˢ Finset.range NB).filter
      (fun p : ℕ × ℕ =>
        batch_start S NS NB p.1 p.2 ≤ x ∧
        x < batch_end S NS NB p.1 p.2)) = {(x / B % NS, x / B / NS)} := by
    ext p
    simp only [Finset.mem_filter, Finset.mem_product, Finset.mem_range, Finset.mem_singleton]
    rw [hmem p, hdiv (p.2 * NS + p.1)]
    constructor
    · rintro ⟨⟨hp1, hp2⟩, hpk⟩
      have hmod : (p.2 * NS + p.1) % NS = p.1 := by
        rw [Nat.mul_comm p.2 NS, Nat.mul_add_mod, Nat.mod_eq_of_lt hp1]
      have hdiv2 : (p.2 * NS + p.1) / NS = p.2 := by
        rw [Nat.mul_comm p.2 NS, Nat.mul_add_div hNS, Nat.div_eq_of_lt hp1, Nat.add_zero]
      cases p with
      | mk a b =>
        simp only [Prod.mk.injEq]
        constructor
        · rw [← hpk, hmod]
        · rw [← hpk, hdiv2]
    · rintro rfl
      refine ⟨⟨Nat.mod_lt _ hNS, ?_⟩, ?_⟩
      · rw [Nat.div_lt_iff_lt_mul hNS]
        omega
      · rw [Nat.mul_comm (x / B / NS) NS]
        exact Nat.div_add_mod _ _
  unfold coverCount
  rw [hsingle, Finset.card_singleton]

/-- C1 witness: at `num_shots = 8`, `num_superbatches = num_batches = 2`
the side condition holds and shot 5 is covered exactly once. -/
theorem extract_batch_exact_cover_witness :
    ((1:ℕ) ≤ 8 ∧ (1:ℕ) ≤ 2 ∧ 2 * batch_size 8 2 2 = superbatch_size 8 2 ∧ 5 < 8) ∧
    coverCount 8 2 2 5 = 1 :=
  ⟨by decide,
   extract_batch_exact_cover 8 2 2 (by decide) (by decide) (by decide) (by decide) 5 (by decide)⟩

/-- C2: the outer time-horizon loop of `fwi` is hard-coded to
`range(1)` (the configured `num_max_time` bound is commented out in the
source), so a run configured with `num_max_time = 3` executes exactly one
stage instead of three. -/
theorem fwi_stage_count_bug :
    (fwiStageIndices 3).length = 1 ∧ (fwiStageIndices 3).length ≠ 3 ∧
    fwiSurveyPadRecomputations 3 = 1 := by decide

/-- C5 counterexample: the PML width vector built by `fwi` at
`pml_width = 10` has second entry 10, so its first pair of entries is not
zeroed (and its last pair, rather than carrying 10, is zero). -/
theorem pml_width_counterexample :
    (pml_width_vec 10).get? 1 = some 10 ∧ (10:ℚ) ≠ 0 ∧
    (pml_width_vec 10).get? 4 = some 0 := by
  refine ⟨?_, by norm_num, ?_⟩ <;> with_unfolding_all decide

/-- C5 (amended): the 6-element PML width vector used by `fwi` zeroes its
FIRST entry (free surface on the shallow side of the first axis) and its
LAST PAIR of entries, while entries 1, 2 and 3 carry the configured
`pml_width` value. -/
theorem pml_width_spec (p : ℚ) :
    pml_width_vec p = [0, p, p, p, 0, 0] := by
  simp [pml_width_vec]

/-- C8: `pool_model` raises a generic invalid-argument error exactly when
the model rank is not 2, 3 or 4, and for ranks 2, 3 and 4 dispatches to
the 1-D, 2-D and 3-D pooling windows respectively. -/
theorem pool_model_rank_check (ndims : ℕ) :
    (pool_model_dispatch ndims = none ↔ ¬(ndims = 2 ∨ ndims = 3 ∨ ndims = 4)) ∧
    pool_model_dispatch 2 = some 1 ∧ pool_model_dispatch 3 = some 2 ∧
    pool_model_dispatch 4 = some 3 := by
  refine ⟨?_, by decide, by decide, by decide⟩
  unfold pool_model_dispatch
  split
  · simp_all
  · split
    · simp_all
    · split
      · simp_all
      · simp_all

/-- C10: `fwi` prepends a singleton property axis to the initial model
exactly when the first dimension of its shape is not 1; a model whose
first dimension is already 1 is passed through unchanged, even if that
dimension is really a spatial axis of length 1. -/
theorem fwi_property_axis_spec (shape : List ℕ) (h : shape ≠ []) :
    (fwiAddPropertyAxis shape = 1 :: shape ↔ shape.headD 0 ≠ 1) ∧
    (shape.headD 0 = 1 → fwiAddPropertyAxis shape = shape) := by
  unfold fwiAddPropertyAxis
  constructor
  · constructor
    · intro heq
      intro h1
      rw [if_neg (by simpa using h1)] at heq
      exact absurd heq.symm (List.cons_ne_self 1 shape)
    · intro h1
      rw [if_pos (by simpa using h1)]
  · intro h1
    rw [if_neg (by simpa using h1)]

/-- C10 witness: the shape `[1, 5]` has first dimension 1 and is passed
through unchanged. -/
theorem fwi_property_axis_spec_witness :
    (([1, 5] : List ℕ) ≠ [] ∧ ([1, 5] : List ℕ).headD 0 = 1) ∧
    fwiAddPropertyAxis [1, 5] = [1, 5] :=
  ⟨by decide, (fwi_property_axis_spec [1, 5] (by decide)).2 (by decide)⟩

/-- C3 counterexample: with wavelet start time -3 and dt 2 the exact
offset is 1.5; at `max_time = 10` and a length-13 wavelet the code keeps
`int(1.5 + 10) = 11` samples, not `round(1.5) + 10 = 12` as claimed. -/
theorem apply_max_time_round_counterexample :
    ((apply_max_time [] ((List.range 13).map (fun n => (n : ℚ))) 2 (-3) 10).2).length = 11 ∧
    (11 : ℤ) ≠ round (-(-3 : ℚ) / 2) + 10 := by
  constructor
  · with_unfolding_all decide
  · with_unfolding_all decide

/-- C3 (amended): `apply_max_time` returns the first `max_time` samples of
the data and the first `int(-src_start_time / dt + max_time)` samples of
the wavelet, where `int` truncates the exact value toward zero (for a
non-negative value, its floor) rather than rounding
`-src_start_time / dt` to the nearest integer. -/
theorem apply_max_time_spec (data src_amp : List ℚ) (dt src_start_time : ℚ) (max_time : ℕ)
    (h : 0 ≤ -src_start_time / dt + (max_time : ℚ)) :
    (apply_max_time data src_amp dt src_start_time max_time).1 = data.take max_time ∧
    (apply_max_time data src_amp dt src_start_time max_time).2 =
      src_amp.take (⌊-src_start_time / dt + (max_time : ℚ)⌋).toNat := by
  have h0 : (0:ℤ) ≤ (max_time : ℤ) := Int.natCast_nonneg _
  have h2 : (0:ℤ) ≤ ⌊-src_start_time / dt + (max_time : ℚ)⌋ := Int.floor_nonneg.mpr h
  constructor
  · simp only [apply_max_time, pyTake, h0, if_true, eq_self_iff_true, if_pos h0]
    rw [Int.toNat_natCast]
  · simp only [apply_max_time, pyInt, pyTake, if_pos h, if_pos h0, if_pos h2]

/-- C3 witness: at dt 2, start time -3, `max_time = 10` the truncation
length is 11 and the claim's hypotheses hold. -/
theorem apply_max_time_spec_witness :
    ((0:ℚ) ≤ -(-3) / 2 + (10:ℕ)) ∧
    ((apply_max_time [(7:ℚ)] [1, 2, 3] 2 (-3) 10).1 = [(7:ℚ)].take 10 ∧
     (apply_max_time [(7:ℚ)] [1, 2, 3] 2 (-3) 10).2 =
       ([1, 2, 3] : List ℚ).take (⌊-(-3:ℚ) / 2 + ((10:ℕ) : ℚ)⌋).toNat) :=
  ⟨by with_unfolding_all decide,
   apply_max_time_spec [(7:ℚ)] [1, 2, 3] 2 (-3) 10 (by with_unfolding_all decide)⟩

/-- C9 counterexample: with start time 5, dt 1 and `max_time = 3` the
computed wavelet length is -2, yet `apply_max_time` neither fails nor
returns an empty wavelet: Python slicing with a negative stop keeps the
first 3 of the 5 wavelet samples. -/
theorem apply_max_time_negative_counterexample :
    (apply_max_time [] [1, 2, 3, 4, 5] 1 5 3).2 = [1, 2, 3] ∧
    ([1, 2, 3] : List ℚ) ≠ [] := by
  constructor
  · with_unfolding_all decide
  · decide

/-- C9 (amended): when the computed wavelet truncation length
`n = int(-src_start_time / dt + max_time)` is negative, `apply_max_time`
does not fail; it returns the wavelet with its last `|n|` samples
dropped (the first `length - |n|` samples), which is empty only when
`|n|` reaches the wavelet length. -/
theorem apply_max_time_negative_spec (data src_amp : List ℚ) (dt src_start_time : ℚ)
    (max_time : ℕ) (h : pyInt (-src_start_time / dt + (max_time : ℚ)) < 0) :
    (apply_max_time data src_amp dt src_start_time max_time).2 =
      src_amp.take (src_amp.length -
        (pyInt (-src_start_time / dt + (max_time : ℚ))).natAbs) ∧
    ((apply_max_time data src_amp dt src_start_time max_time).2 = [] ↔
      src_amp.length ≤ (pyInt (-src_start_time / dt + (max_time : ℚ))).natAbs) := by
  set n := pyInt (-src_start_time / dt + (max_time : ℚ)) with hn
  have hres : (apply_max_time data src_amp dt src_start_time max_time).2 =
      src_amp.take ((src_amp.length : ℤ) + n).toNat := by
    simp only [apply_max_time]
    unfold pyTake
    rw [if_neg (by omega)]
  have htoNat : ((src_amp.length : ℤ) + n).toNat = src_amp.length - n.natAbs := by
    omega
  constructor
  · rw [hres, htoNat]
  · rw [hres, htoNat]
    rw [List.take_eq_nil_iff]
    constructor
    · rintro (h1 | h1)
      · omega
      · simp [h1]
    · intro h1
      left
      omega

/-- C9 witness: at start time 5, dt 1, `max_time = 3` the computed length
is -2 and the returned wavelet is the 5-sample wavelet minus its last 2
samples, which is nonempty. -/
theorem apply_max_time_negative_spec_witness :
    (pyInt (-(5:ℚ) / 1 + ((3:ℕ) : ℚ)) < 0) ∧
    ((apply_max_time [] [1, 2, 3, 4, 5] 1 5 3).2 =
      ([1, 2, 3, 4, 5] : List ℚ).take
        (([1, 2, 3, 4, 5] : List ℚ).length - (pyInt (-(5:ℚ) / 1 + ((3:ℕ) : ℚ))).natAbs) ∧
     ((apply_max_time [] [1, 2, 3, 4, 5] 1 5 3).2 = [] ↔
      ([1, 2, 3, 4, 5] : List ℚ).length ≤ (pyInt (-(5:ℚ) / 1 + ((3:ℕ) : ℚ))).natAbs)) :=
  ⟨by with_unfolding_all decide,
   apply_max_time_negative_spec [] [1, 2, 3, 4, 5] 1 5 3 (by with_unfolding_all decide)⟩

/-- C4 counterexample: pooling a length-10 time axis with factor 4 and
start time 0 (padding 0, a configuration `AvgPool1d` accepts) succeeds
with 2 output samples, not `ceil((10 + 0) / 4) = 3` as claimed:
`AvgPool1d` uses floor-mode output length. -/
theorem pool_data_length_counterexample :
    ((pool_data ((List.range 10).map (fun n => (n : ℚ))) 4 1 0).map
      (fun r => r.1.length)) = some 2 ∧
    poolDataPadding 0 1 4 = 0 ∧ (2 : ℕ) ≠ ceilDiv (10 + 0) 4 := by
  refine ⟨?_, ?_, by decide⟩ <;> with_unfolding_all decide

/-- Error path of the Downsampler's time pooling: at start time -1, dt 1
and factor 3 the computed padding is 2, which exceeds half the kernel
size, so the library rejects the call and `pool_data` raises
(modelled as `none`). -/
theorem pool_data_padding_error :
    poolDataPadding (-1) 1 3 = 2 ∧ ¬((2:ℕ) ≤ 3 / 2) ∧
    pool_data [1, 2, 3] 3 1 (-1) = none := by
  refine ⟨?_, by decide, ?_⟩ <;> with_unfolding_all decide

/-- C4 (amended): whenever `AvgPool1d` accepts the configuration (factor
at least 1, padding `int(start_time / dt) mod factor` at most half the
factor, factor at most the padded input length), `pool_data` succeeds and
zero-pads the time axis on BOTH sides by the padding, each output sample
is the mean of `factor` consecutive samples of the two-sided padded
input, the output time-length is
`floor((input_length + 2 * padding) / factor)`, and the returned time
step is `dt * factor`; outside those conditions the call raises. -/
theorem pool_data_spec (data : List ℚ) (k : ℕ) (dt st : ℚ) (i : ℕ)
    (hk : 1 ≤ k) (hpad : poolDataPadding st dt k ≤ k / 2)
    (hlen : k ≤ data.length + 2 * poolDataPadding st dt k)
    (hi : i < (data.length + 2 * poolDataPadding st dt k) / k) :
    ∃ data_pool : List ℚ,
      pool_data data k dt st = some (data_pool, dt * k) ∧
      data_pool.length = (data.length + 2 * poolDataPadding st dt k) / k ∧
      (((List.replicate (poolDataPadding st dt k) (0:ℚ) ++ data ++
          List.replicate (poolDataPadding st dt k) 0).drop (i * k)).take k).length = k ∧
      data_pool.get? i =
        some ((((List.replicate (poolDataPadding st dt k) (0:ℚ) ++ data ++
          List.replicate (poolDataPadding st dt k) 0).drop (i * k)).take k).sum / (k : ℚ)) := by
  set p := poolDataPadding st dt k with hp
  set L := data.length with hL
  have hkpos : 0 < k := hk
  have hpadlen : (List.replicate p (0:ℚ) ++ data ++ List.replicate p 0).length = L + 2 * p := by
    simp [List.length_append, List.length_replicate]
    omega
  have hlenEq : (L + 2 * p - k) / k + 1 = (L + 2 * p) / k := by
    rw [Nat.div_eq_sub_div hkpos hlen]
  have havg : avgPool1d k p data =
      some ((List.range ((L + 2 * p - k) / k + 1)).map
        (fun j => (((List.replicate p (0:ℚ) ++ data ++
          List.replicate p 0).drop (j * k)).take k).sum / (k : ℚ))) := by
    unfold avgPool1d
    rw [if_pos ⟨hk, hpad, hlen⟩]
  have hi3 : i < (L + 2 * p - k) / k + 1 := by omega
  have hi2 : i * k + k ≤ L + 2 * p := by
    have h5 : i ≤ (L + 2 * p - k) / k := by omega
    have h6 := (Nat.le_div_iff_mul_le hkpos).mp h5
    omega
  refine ⟨(List.range ((L + 2 * p - k) / k + 1)).map
      (fun j => (((List.replicate p (0:ℚ) ++ data ++
        List.replicate p 0).drop (j * k)).take k).sum / (k : ℚ)), ?_, ?_, ?_, ?_⟩
  · simp only [pool_data]
    rw [← hp, havg]
    rfl
  · rw [List.length_map, List.length_range]
    exact hlenEq
  · rw [List.length_take, List.length_drop, hpadlen]
    omega
  · rw [List.get?_eq_getElem?, List.getElem?_map, List.getElem?_range hi3]
    rfl

/-- C4 witness: pooling the length-4 list `[1, 2, 3, 4]` with factor 4,
dt 1 and start time 0 (a valid configuration with padding 0) succeeds
with one output sample, the mean of the 4 samples. -/
theorem pool_data_spec_witness :
    ((1:ℕ) ≤ 4 ∧ poolDataPadding 0 1 4 ≤ 4 / 2 ∧
     4 ≤ ([1, 2, 3, 4] : List ℚ).length + 2 * poolDataPadding 0 1 4 ∧
     0 < (([1, 2, 3, 4] : List ℚ).length + 2 * poolDataPadding 0 1 4) / 4) ∧
    (∃ data_pool : List ℚ,
      pool_data [1, 2, 3, 4] 4 1 0 = some (data_pool, 1 * ((4:ℕ) : ℚ)) ∧
      data_pool.length = (([1, 2, 3, 4] : List ℚ).length + 2 * poolDataPadding 0 1 4) / 4 ∧
      (((List.replicate (poolDataPadding 0 1 4) (0:ℚ) ++ [1, 2, 3, 4] ++
          List.replicate (poolDataPadding 0 1 4) 0).drop (0 * 4)).take 4).length = 4 ∧
      data_pool.get? 0 =
        some ((((List.replicate (poolDataPadding 0 1 4) (0:ℚ) ++ [1, 2, 3, 4] ++
          List.replicate (poolDataPadding 0 1 4) 0).drop (0 * 4)).take 4).sum / ((4:ℕ) : ℚ))) :=
  ⟨⟨by decide, by with_unfolding_all decide, by with_unfolding_all decide,
    by with_unfolding_all decide⟩,
   pool_data_spec [1, 2, 3, 4] 4 1 0 0 (by decide) (by with_unfolding_all decide)
     (by with_unfolding_all decide) (by with_unfolding_all decide)⟩

/-- C6 counterexample: with a negative cap `max_horiz_survey_pad = -1`, a
rank-3 model of maximum velocity 1, `max_time = 2` and dt 1, the survey
pad contains the negative entry -1, so non-negativity does not follow
from non-negative velocities, dt and time steps alone. -/
theorem calc_survey_pad_counterexample :
    ((-1 : ℚ)) ∈ calc_survey_pad 2 1 3 1 (-1) ∧ ¬((0 : ℚ) ≤ -1) := by
  constructor
  · with_unfolding_all decide
  · with_unfolding_all decide

/-- C6 (amended): `calc_survey_pad` returns `2 * ndims` entries
(`ndims = model.dim() - 1`) all initialised to
`max(model) * max_time * dt / 2`; for `ndims = 1` nothing is clamped, for
`ndims ≥ 2` the first axis's pair is left at that value and every entry
from index 2 onward is clamped to at most `max_horiz_survey_pad`; given
non-negative velocities, dt, time steps AND a non-negative
`max_horiz_survey_pad`, all entries are non-negative. -/
theorem calc_survey_pad_spec (max_time : ℕ) (dt model_max mh : ℚ) (model_dim : ℕ)
    (h1 : 0 ≤ model_max) (h2 : 0 ≤ dt) (h3 : 0 ≤ mh) :
    (calc_survey_pad max_time dt model_dim model_max mh).length = 2 * (model_dim - 1) ∧
    (model_dim - 1 ≤ 1 → calc_survey_pad max_time dt model_dim model_max mh =
      List.replicate (2 * (model_dim - 1)) (model_max * (max_time : ℚ) * dt / 2)) ∧
    (1 < model_dim - 1 → calc_survey_pad max_time dt model_dim model_max mh =
      List.replicate 2 (model_max * (max_time : ℚ) * dt / 2) ++
      List.replicate (2 * (model_dim - 1) - 2)
        (min (model_max * (max_time : ℚ) * dt / 2) mh)) ∧
    (∀ v ∈ calc_survey_pad max_time dt model_dim model_max mh, 0 ≤ v) ∧
    (1 < model_dim - 1 →
      ∀ v ∈ (calc_survey_pad max_time dt model_dim model_max mh).drop 2, v ≤ mh) := by
  set nd := model_dim - 1 with hnd
  set pd := model_max * (max_time : ℚ) * dt / 2 with hpd
  have hpd0 : 0 ≤ pd := by
    rw [hpd]
    have h4 : (0:ℚ) ≤ (max_time : ℚ) := Nat.cast_nonneg _
    positivity
  have hstruct : calc_survey_pad max_time dt model_dim model_max mh =
      if 1 < nd then
        List.replicate 2 pd ++ List.replicate (2 * nd - 2) (min pd mh)
      else List.replicate (2 * nd) pd := by
    simp only [calc_survey_pad]
    rw [← hnd, ← hpd]
    split
    · next hcase =>
      rw [List.take_replicate, List.drop_replicate, List.map_replicate]
      congr 1
      congr 1
      omega
    · rfl
  by_cases hc : 1 < nd
  · rw [hstruct, if_pos hc]
    refine ⟨?_, ?_, ?_, ?_, ?_⟩
    · simp [List.length_append, List.length_replicate]
      omega
    · intro h; omega
    · intro _; rfl
    · intro v hv
      rcases List.mem_append.mp hv with hv1 | hv1
      · rw [List.eq_of_mem_replicate hv1]; exact hpd0
      · rw [List.eq_of_mem_replicate hv1]; exact le_min hpd0 h3
    · intro _ v hv
      have hdrop : (List.replicate 2 pd ++ List.replicate (2 * nd - 2) (min pd mh)).drop 2 =
          List.replicate (2 * nd - 2) (min pd mh) :=
        List.drop_left' (List.length_replicate 2 pd)
      rw [hdrop] at hv
      rw [List.eq_of_mem_replicate hv]
      exact min_le_right _ _
  · rw [hstruct, if_neg hc]
    refine ⟨List.length_replicate _ _, fun _ => rfl, fun h => absurd h hc, ?_, fun h => absurd h hc⟩
    intro v hv
    rw [List.eq_of_mem_replicate hv]
    exact hpd0

/-- C6 witness: a rank-3 model with maximum velocity 1, `max_time = 2`,
dt 1 and cap 5 satisfies the non-negativity hypotheses. -/
theorem calc_survey_pad_spec_witness :
    ((0:ℚ) ≤ 1 ∧ (0:ℚ) ≤ 1 ∧ (0:ℚ) ≤ 5) ∧
    ((calc_survey_pad 2 1 3 1 5).length = 2 * (3 - 1) ∧
     (3 - 1 ≤ 1 → calc_survey_pad 2 1 3 1 5 =
       List.replicate (2 * (3 - 1)) (1 * ((2:ℕ) : ℚ) * 1 / 2)) ∧
     (1 < 3 - 1 → calc_survey_pad 2 1 3 1 5 =
       List.replicate 2 (1 * ((2:ℕ) : ℚ) * 1 / 2) ++
       List.replicate (2 * (3 - 1) - 2) (min (1 * ((2:ℕ) : ℚ) * 1 / 2) 5)) ∧
     (∀ v ∈ calc_survey_pad 2 1 3 1 5, 0 ≤ v) ∧
     (1 < 3 - 1 → ∀ v ∈ (calc_survey_pad 2 1 3 1 5).drop 2, v ≤ 5)) :=
  ⟨⟨by with_unfolding_all decide, by with_unfolding_all decide, by with_unfolding_all decide⟩,
   calc_survey_pad_spec 2 1 1 5 3 (by with_unfolding_all decide)
     (by with_unfolding_all decide) (by with_unfolding_all decide)⟩

/-- C7 counterexample: a model containing velocity 0 yields decimation
factor `ceil(0 / dx) = 0`, so the factor is not at least 1 for every
model with positive dt and dx. -/
theorem num_pool_counterexample :
    num_pool [0] 1 1 4 = 0 ∧ ¬(1 ≤ (0 : ℤ)) := by
  constructor
  · with_unfolding_all decide
  · decide

/-- C7 (amended): for a model of POSITIVE minimum velocity and positive
dt, dx and cells-per-wavelength, the decimation factor
`ceil(max_dx / dx)` of `pool_model` is at least 1; it equals 1 when `dx`
exactly equals the wavelength-resolving bound `max_dx`; and the returned
spatial step is `dx * factor`. -/
theorem pool_model_factor_spec (model : List ℚ) (dt dx mcpw : ℚ)
    (h1 : 0 < listMin model) (h2 : 0 < dt) (h3 : 0 < dx) (h4 : 0 < mcpw) :
    1 ≤ num_pool model dt dx mcpw ∧
    (dx = max_dx (listMin model) dt mcpw → num_pool model dt dx mcpw = 1) ∧
    pool_model_new_dx model dt dx mcpw = dx * (num_pool model dt dx mcpw : ℚ) := by
  have ha : 0 < 1 / dt / 2 := by positivity
  have hmd : 0 < max_dx (listMin model) dt mcpw := by
    unfold max_dx
    exact div_pos (div_pos h1 ha) h4
  refine ⟨?_, ?_, rfl⟩
  · have hr : 0 < max_dx (listMin model) dt mcpw / dx := div_pos hmd h3
    have h5 := Int.ceil_pos.mpr hr
    unfold num_pool
    omega
  · intro hdx
    unfold num_pool
    rw [hdx, div_self (ne_of_gt hmd)]
    exact Int.ceil_one

/-- C7 witness: the uniform model `[2]` with dt 1, dx 1 and 4 cells per
wavelength has positive minimum velocity and factor at least 1. -/
theorem pool_model_factor_spec_witness :
    ((0:ℚ) < listMin [2] ∧ (0:ℚ) < 1 ∧ (0:ℚ) < 4) ∧
    (1 ≤ num_pool [2] 1 1 4 ∧
     ((1:ℚ) = max_dx (listMin [2]) 1 4 → num_pool [2] 1 1 4 = 1) ∧
     pool_model_new_dx [2] 1 1 4 = 1 * (num_pool [2] 1 1 4 : ℚ)) :=
  ⟨⟨by with_unfolding_all decide, by with_unfolding_all decide, by with_unfolding_all decide⟩,
   pool_model_factor_spec [2] 1 1 4 (by with_unfolding_all decide)
     (by with_unfolding_all decide) (by with_unfolding_all decide)
     (by with_unfolding_all decide)⟩
